import Mathlib

/-!
Verification of the schema-inference and binding engine of the
sync_templates repository (src/generate_mongo.py and
src/templates_dummy_gen/generate.py), over a shallow embedding of the
Python code.

A Python/JSON value is embedded as `JSON`; a Python dict of JSON values is
an association list `Obj` (Python dicts are insertion ordered with unique
keys; lookup returns the first matching key).
-/

/-- The universal JSON data model: the values the generator reads from the
metamodel files. `null` embeds Python `None`, `float` embeds Python floats
as rationals (the code never computes with them, it only classifies them).
-/
inductive JSON where
  | null
  | bool (b : Bool)
  | int (n : Int)
  | float (q : Rat)
  | str (s : String)
  | arr (elems : List JSON)
  | obj (fields : List (String × JSON))

/-- A Python dict of JSON values, as an insertion-ordered association list. -/
abbrev Obj := List (String × JSON)

/-- Python `d[key]` / `key in d`: first binding of `key` in the dict. -/
def lookup : Obj → String → Option JSON
  | [], _ => Option.none
  | (k, v) :: rest, key => if k = key then some v else lookup rest key

/-- Python `key in item`. -/
def hasKey (d : Obj) (key : String) : Bool := (lookup d key).isSome

/-- Python `isinstance(v, dict)`. -/
def isObjV : JSON → Bool
  | .obj _ => true
  | _ => false

/-- Python `isinstance(v, list)`. -/
def isArrV : JSON → Bool
  | .arr _ => true
  | _ => false

/-- Python `v is None`. -/
def isNullV : JSON → Bool
  | .null => true
  | _ => false

/-- Extract the fields of a JSON object (used for `[v for v in values if isinstance(v, dict)]`). -/
def asObjV : JSON → Option Obj
  | .obj fields => some fields
  | _ => none

/-- First element of the first non-empty list (`list_samples[0][0]` applied
to the filtered non-empty lists): returns the head when the value is a
non-empty JSON array. -/
def firstOfArr : JSON → Option JSON
  | .arr (x :: _) => some x
  | _ => none

/-- The union of the key sets of the sample objects, as iterated by
`all_keys = set(); for item in items: all_keys.update(item.keys())`.
CPython iterates a set in an unspecified order; the embedding fixes one
deduplicated order, and every property below is stated through `lookup`,
which is insensitive to that choice. -/
def allKeys (items : List Obj) : List String :=
  (items.map (fun it => it.map Prod.fst)).flatten.dedup

/-- The values list `[item[key] for item in items if key in item]`. -/
def presentValues (items : List Obj) (key : String) : List JSON :=
  items.filterMap (fun it => lookup it key)

/-- The list `non_null_values = [v for v in values if v is not None]`. -/
def nonNullValues (items : List Obj) (key : String) : List JSON :=
  (presentValues items key).filter (fun v => !isNullV v)

theorem sizeOf_lookup {it : Obj} {key : String} {v : JSON}
    (h : lookup it key = some v) : sizeOf v < sizeOf it := by
  induction it with
  | nil => simp [lookup] at h
  | cons p rest ih =>
    obtain ⟨k, w⟩ := p
    simp only [lookup] at h
    split at h
    · cases h
      simp only [Prod.mk.sizeOf_spec, List.cons.sizeOf_spec]
      omega
    · have := ih h
      simp only [List.cons.sizeOf_spec]
      omega

theorem sizeOf_presentValues_le (items : List Obj) (key : String) :
    sizeOf (presentValues items key) ≤ sizeOf items := by
  induction items with
  | nil => simp [presentValues]
  | cons it rest ih =>
    simp only [presentValues, List.filterMap_cons] at *
    cases h : lookup it key with
    | none =>
      simp only [List.cons.sizeOf_spec]
      omega
    | some v =>
      have hv := sizeOf_lookup h
      simp only [List.cons.sizeOf_spec]
      omega

theorem sizeOf_presentValues_lt (items : List Obj) (key : String)
    (h : items ≠ []) : sizeOf (presentValues items key) < sizeOf items := by
  cases items with
  | nil => exact absurd rfl h
  | cons it rest =>
    have hle := sizeOf_presentValues_le rest key
    simp only [presentValues, List.filterMap_cons] at *
    cases hl : lookup it key with
    | none =>
      simp only [List.cons.sizeOf_spec]
      omega
    | some v =>
      have hv := sizeOf_lookup hl
      simp only [List.cons.sizeOf_spec]
      omega

theorem sizeOf_filter_le (p : JSON → Bool) (l : List JSON) :
    sizeOf (l.filter p) ≤ sizeOf l := by
  induction l with
  | nil => simp
  | cons x xs ih =>
    simp only [List.filter_cons]
    split
    · simp only [List.cons.sizeOf_spec]; omega
    · simp only [List.cons.sizeOf_spec]; omega

theorem sizeOf_filterMap_asObjV_le (l : List JSON) :
    sizeOf (l.filterMap asObjV) ≤ sizeOf l := by
  induction l with
  | nil => simp
  | cons x xs ih =>
    simp only [List.filterMap_cons]
    cases h : asObjV x with
    | none => simp only [List.cons.sizeOf_spec]; omega
    | some fields =>
      have : sizeOf fields < sizeOf x := by
        cases x <;> simp [asObjV] at h
        subst h
        simp only [JSON.obj.sizeOf_spec]
        omega
      simp only [List.cons.sizeOf_spec]
      omega

theorem nonNullValues_ne_nil_of_any {items : List Obj} {key : String}
    (p : JSON → Bool) (h : (nonNullValues items key).any p = true) :
    items ≠ [] := by
  intro hnil
  subst hnil
  simp [nonNullValues, presentValues] at h

theorem sizeOf_ds_lt (items : List Obj) (key : String)
    (h : (nonNullValues items key).any isObjV = true) :
    sizeOf ((nonNullValues items key).filterMap asObjV) < sizeOf items := by
  have h1 := sizeOf_filterMap_asObjV_le (nonNullValues items key)
  have h2 := sizeOf_filter_le (fun v => !isNullV v) (presentValues items key)
  have h3 := sizeOf_presentValues_lt items key (nonNullValues_ne_nil_of_any isObjV h)
  simp only [nonNullValues] at *
  omega

/-- Embedding of `get_common_structure` (src/generate_mongo.py lines 56-88
and, identically, src/templates_dummy_gen/generate.py lines 49-89): the
per-key loop `for key in all_keys` becomes recursion over the key list.
For each key: a key absent from some sample, or present only with null
values, is generalized to null; dictionary values are merged recursively;
for list values the first element of the first non-empty list becomes the
single element sample; otherwise the first non-null value is kept. -/
def gcsFields (items : List Obj) : List String → Obj
  | [] => []
  | key :: rest =>
    let values := presentValues items key
    let entry : JSON :=
      if values.length < items.length then JSON.null
      else
        let nnv := nonNullValues items key
        if nnv.isEmpty then JSON.null
        else if h : nnv.any isObjV then
          let ds := nnv.filterMap asObjV
          if ds.isEmpty then JSON.null
          else JSON.obj (gcsFields ds (allKeys ds))
        else if nnv.any isArrV then
          match nnv.filterMap firstOfArr with
          | [] => JSON.arr []
          | x :: _ => JSON.arr [x]
        else nnv.headD JSON.null
    (key, entry) :: gcsFields items rest
termination_by keys => (sizeOf items, keys.length)
decreasing_by
  · exact Prod.Lex.left _ _ (sizeOf_ds_lt items key h)
  · exact Prod.Lex.right (sizeOf items) (Nat.lt_succ_self _)

/-- Embedding of `get_common_structure` itself: `if not items: return {}`,
then the loop over the union of the key sets. -/
def get_common_structure (items : List Obj) : Obj :=
  if items.isEmpty then [] else gcsFields items (allKeys items)

/-- The value `get_common_structure` computes for one key of `common`:
the body of the `for key in all_keys` loop, written with the recursive
merge expressed through `get_common_structure` itself. -/
def fieldValue (items : List Obj) (key : String) : JSON :=
  if (presentValues items key).length < items.length then JSON.null
  else
    let nnv := nonNullValues items key
    if nnv.isEmpty then JSON.null
    else if nnv.any isObjV then
      let ds := nnv.filterMap asObjV
      if ds.isEmpty then JSON.null
      else JSON.obj (get_common_structure ds)
    else if nnv.any isArrV then
      match nnv.filterMap firstOfArr with
      | [] => JSON.arr []
      | x :: _ => JSON.arr [x]
    else nnv.headD JSON.null

theorem get_common_structure_ne_nil {ds : List Obj} (h : ds.isEmpty = false) :
    get_common_structure ds = gcsFields ds (allKeys ds) := by
  simp [get_common_structure, h]

theorem gcsFields_cons (items : List Obj) (key : String) (rest : List String) :
    gcsFields items (key :: rest) =
      (key, fieldValue items key) :: gcsFields items rest := by
  rw [gcsFields]
  congr 2
  by_cases h1 : (presentValues items key).length < items.length
  · simp [fieldValue, h1]
  · by_cases h2 : (nonNullValues items key).isEmpty
    · simp [fieldValue, h1, h2]
    · by_cases h3 : (nonNullValues items key).any isObjV
      · by_cases h4 : ((nonNullValues items key).filterMap asObjV).isEmpty
        · simp [fieldValue, h1, h2, h3, h4]
        · simp [fieldValue, h1, h2, h3, h4,
            get_common_structure_ne_nil (Bool.of_not_eq_true h4)]
      · simp [fieldValue, h1, h2, h3]

theorem gcsFields_eq_map (items : List Obj) (keys : List String) :
    gcsFields items keys = keys.map (fun k => (k, fieldValue items k)) := by
  induction keys with
  | nil => rw [gcsFields]; rfl
  | cons k rest ih => rw [gcsFields_cons, ih]; rfl

theorem gcs_eq_map {items : List Obj} (h : items ≠ []) :
    get_common_structure items =
      (allKeys items).map (fun k => (k, fieldValue items k)) := by
  rw [get_common_structure, if_neg (by simpa using h), gcsFields_eq_map]

theorem lookup_map_keys (f : String → JSON) (keys : List String) (key : String)
    (hnd : keys.Nodup) :
    lookup (keys.map (fun k => (k, f k))) key =
      if key ∈ keys then some (f key) else Option.none := by
  induction keys with
  | nil => simp [lookup]
  | cons k rest ih =>
    simp only [List.map_cons, lookup, List.nodup_cons] at *
    by_cases hk : k = key
    · subst hk
      simp [hnd.1]
    · rw [if_neg hk, ih hnd.2]
      by_cases hmem : key ∈ rest
      · rw [if_pos hmem, if_pos (List.mem_cons_of_mem _ hmem)]
      · rw [if_neg hmem,
          if_neg (fun hc => (List.mem_cons.mp hc).elim (fun hs => hk hs.symm) hmem)]

theorem allKeys_nodup (items : List Obj) : (allKeys items).Nodup :=
  List.nodup_dedup _

theorem hasKey_iff_mem_keys (it : Obj) (key : String) :
    hasKey it key = true ↔ key ∈ it.map Prod.fst := by
  induction it with
  | nil => simp [hasKey, lookup]
  | cons p rest ih =>
    obtain ⟨k, v⟩ := p
    by_cases hk : k = key
    · subst hk; simp [hasKey, lookup]
    · simp only [hasKey, lookup, if_neg hk, List.map_cons, List.mem_cons] at *
      rw [ih]
      constructor
      · exact Or.inr
      · rintro (h | h)
        · exact absurd h.symm hk
        · exact h

/-- Per-key description of the inferred structure: for a non-empty sample
list, looking a key up in the result of `get_common_structure` yields
`fieldValue` exactly on the union of the sample key sets. -/
theorem lookup_gcs {items : List Obj} (h : items ≠ []) (key : String) :
    lookup (get_common_structure items) key =
      if key ∈ allKeys items then some (fieldValue items key) else Option.none := by
  rw [gcs_eq_map h, lookup_map_keys _ _ _ (allKeys_nodup items)]

theorem mem_allKeys (items : List Obj) (key : String) :
    key ∈ allKeys items ↔ ∃ it ∈ items, hasKey it key = true := by
  simp only [allKeys, List.mem_dedup, List.mem_flatten, List.mem_map]
  constructor
  · rintro ⟨l, ⟨it, hit, rfl⟩, hkey⟩
    exact ⟨it, hit, (hasKey_iff_mem_keys it key).mpr hkey⟩
  · rintro ⟨it, hit, hkey⟩
    exact ⟨it.map Prod.fst, ⟨it, hit, rfl⟩, (hasKey_iff_mem_keys it key).mp hkey⟩

theorem presentValues_length_le (items : List Obj) (key : String) :
    (presentValues items key).length ≤ items.length :=
  List.length_filterMap_le _ _

theorem presentValues_length_eq_iff (items : List Obj) (key : String) :
    (presentValues items key).length = items.length ↔
      ∀ it ∈ items, hasKey it key = true := by
  induction items with
  | nil => simp [presentValues]
  | cons it rest ih =>
    simp only [presentValues, List.filterMap_cons] at *
    cases h : lookup it key with
    | none =>
      have hle := List.length_filterMap_le (fun o => lookup o key) rest
      constructor
      · intro hlen
        simp only [List.length_cons] at hlen
        exact absurd hlen (Nat.ne_of_lt (Nat.lt_succ_of_le hle))
      · intro hall
        have hx := hall it (List.mem_cons_self it rest)
        simp [hasKey, h] at hx
    | some v =>
      simp only [List.length_cons]
      constructor
      · intro hlen x hmem
        rcases List.mem_cons.mp hmem with rfl | hmem
        · simp [hasKey, h]
        · exact ih.mp (by omega) x hmem
      · intro hall
        have := ih.mpr (fun x hx => hall x (List.mem_cons_of_mem _ hx))
        omega

theorem ds_ne_nil_of_any_obj {l : List JSON} (h : l.any isObjV = true) :
    l.filterMap asObjV ≠ [] := by
  obtain ⟨v, hv, hobj⟩ := List.any_eq_true.mp h
  cases v <;> simp [isObjV] at hobj
  next fields =>
  exact List.ne_nil_of_mem (List.mem_filterMap.mpr ⟨JSON.obj fields, hv, rfl⟩)

theorem mem_nonNullValues_not_null {items : List Obj} {key : String} {v : JSON}
    (h : v ∈ nonNullValues items key) : isNullV v = false := by
  have := (List.mem_filter.mp h).2
  simpa using this

theorem headD_nonNull_ne_null {items : List Obj} {key : String}
    (hne : nonNullValues items key ≠ []) :
    (nonNullValues items key).headD JSON.null ≠ JSON.null := by
  cases hv : nonNullValues items key with
  | nil => exact absurd hv hne
  | cons v rest =>
    have hmem : v ∈ nonNullValues items key := by
      rw [hv]; exact List.mem_cons_self _ _
    have hnn := mem_nonNullValues_not_null hmem
    simp only [List.headD_cons]
    intro heq
    subst heq
    simp [isNullV] at hnn

theorem fieldValue_scalar {items : List Obj} {key : String}
    (h1 : ¬ (presentValues items key).length < items.length)
    (h2 : nonNullValues items key ≠ [])
    (h3 : (nonNullValues items key).any isObjV = false)
    (h4 : (nonNullValues items key).any isArrV = false) :
    fieldValue items key = (nonNullValues items key).headD JSON.null := by
  unfold fieldValue
  simp [h1, h2, h3, h4]

theorem fieldValue_arr {items : List Obj} {key : String}
    (h1 : ¬ (presentValues items key).length < items.length)
    (h2 : nonNullValues items key ≠ [])
    (h3 : (nonNullValues items key).any isObjV = false)
    (h4 : (nonNullValues items key).any isArrV = true) :
    fieldValue items key =
      JSON.arr ((nonNullValues items key).filterMap firstOfArr).head?.toList := by
  unfold fieldValue
  simp only [if_neg h1, List.isEmpty_iff, h2, if_neg, h3, h4]
  cases hfm : (nonNullValues items key).filterMap firstOfArr with
  | nil => simp [h2, h3, h4, hfm]
  | cons x xs => simp [h2, h3, h4, hfm]

theorem fieldValue_obj {items : List Obj} {key : String}
    (h1 : ¬ (presentValues items key).length < items.length)
    (h3 : (nonNullValues items key).any isObjV = true) :
    fieldValue items key =
      JSON.obj (get_common_structure ((nonNullValues items key).filterMap asObjV)) := by
  unfold fieldValue
  have hds := ds_ne_nil_of_any_obj h3
  have h2 : nonNullValues items key ≠ [] := by
    obtain ⟨v, hv, _⟩ := List.any_eq_true.mp h3
    exact List.ne_nil_of_mem hv
  simp [h1, h2, h3, hds]

theorem fieldValue_eq_null_iff (items : List Obj) (key : String) :
    fieldValue items key = JSON.null ↔
      ((presentValues items key).length < items.length ∨
        nonNullValues items key = []) := by
  by_cases h1 : (presentValues items key).length < items.length
  · simp only [fieldValue, if_pos h1]
    simp [h1]
  · by_cases h2 : nonNullValues items key = []
    · simp only [fieldValue, if_neg h1]
      simp [h1, h2]
    · by_cases h3 : (nonNullValues items key).any isObjV
      · rw [fieldValue_obj h1 h3]
        simp [h1, h2]
      · by_cases h4 : (nonNullValues items key).any isArrV
        · rw [fieldValue_arr h1 h2 (Bool.of_not_eq_true h3) h4]
          simp [h1, h2]
        · rw [fieldValue_scalar h1 h2 (Bool.of_not_eq_true h3) (Bool.of_not_eq_true h4)]
          constructor
          · intro hnull
            exact absurd hnull (headD_nonNull_ne_null h2)
          · rintro (hc | hc)
            · exact absurd hc h1
            · exact absurd hc h2

theorem isNullV_eq_false_iff (v : JSON) : isNullV v = false ↔ v ≠ JSON.null := by
  cases v <;> simp [isNullV]

theorem mem_presentValues_iff {items : List Obj} {key : String} {v : JSON} :
    v ∈ presentValues items key ↔ ∃ it ∈ items, lookup it key = some v := by
  simp [presentValues, List.mem_filterMap]

theorem mem_nonNullValues_iff {items : List Obj} {key : String} {v : JSON} :
    v ∈ nonNullValues items key ↔
      ((∃ it ∈ items, lookup it key = some v) ∧ isNullV v = false) := by
  simp [nonNullValues, List.mem_filter, mem_presentValues_iff]

theorem presentValues_append (A B : List Obj) (key : String) :
    presentValues (A ++ B) key = presentValues A key ++ presentValues B key := by
  simp [presentValues, List.filterMap_append]

theorem nonNullValues_append (A B : List Obj) (key : String) :
    nonNullValues (A ++ B) key = nonNullValues A key ++ nonNullValues B key := by
  simp [nonNullValues, presentValues_append, List.filter_append]

theorem hasKey_gcs (items : List Obj) (key : String) :
    hasKey (get_common_structure items) key = true ↔
      ∃ it ∈ items, hasKey it key = true := by
  by_cases hni : items = []
  · subst hni
    simp [get_common_structure, hasKey, lookup]
  · rw [hasKey, lookup_gcs hni key]
    by_cases hmem : key ∈ allKeys items
    · rw [if_pos hmem]
      simpa using (mem_allKeys items key).mp hmem
    · rw [if_neg hmem]
      constructor
      · intro h
        simp at h
      · intro hex
        exact absurd ((mem_allKeys items key).mpr hex) hmem

theorem lookup_gcs_eq_some_null_iff (items : List Obj) (key : String) :
    lookup (get_common_structure items) key = some JSON.null ↔
      (key ∈ allKeys items ∧
        ((presentValues items key).length < items.length ∨
          nonNullValues items key = [])) := by
  by_cases hni : items = []
  · subst hni
    simp [get_common_structure, lookup, allKeys]
  · rw [lookup_gcs hni key]
    by_cases hmem : key ∈ allKeys items
    · simp [hmem, fieldValue_eq_null_iff]
    · simp [hmem]

theorem bool_eq_of_iff {a b : Bool} (h : (a = true) ↔ (b = true)) : a = b := by
  cases a <;> cases b <;> simp_all

/-- A field of the inferred common structure is marked required when its
generalized value is not the null marker: null is what
`get_common_structure` stores for keys that are missing from some sample or
carry only null values, and `create_dataclass_from_dict` turns exactly the
null markers into the permissive `Optional[Any]` fields. -/
def isRequiredField (samples : List Obj) (key : String) : Bool :=
  match lookup (get_common_structure samples) key with
  | some v => !isNullV v
  | none => false

theorem isRequiredField_iff (samples : List Obj) (key : String) :
    isRequiredField samples key = true ↔
      (hasKey (get_common_structure samples) key = true ∧
        lookup (get_common_structure samples) key ≠ some JSON.null) := by
  unfold isRequiredField hasKey
  cases h : lookup (get_common_structure samples) key with
  | none => simp
  | some v =>
    cases v <;> simp [isNullV]

/-- The name of the concrete runtime kind of a JSON value (`type(v)`). -/
def kindName : JSON → String
  | .null => "NoneType"
  | .bool _ => "bool"
  | .int _ => "int"
  | .float _ => "float"
  | .str _ => "str"
  | .arr _ => "list"
  | .obj _ => "dict"

theorem mem_append_comm_lr {α : Type _} {x : α} {A B : List α} :
    x ∈ A ++ B ↔ x ∈ B ++ A := by
  simp only [List.mem_append]
  tauto

theorem ne_nil_of_isEmpty_false {α : Type _} {l : List α}
    (h : l.isEmpty = false) : l ≠ [] := by
  cases l <;> simp_all

/-- C1 (amended). The claim fails as stated: `get_common_structure` keeps
the first non-null sample value for a field, so swapping the sample order
can change the result (see the counterexample). What is order-independent
is the structural part of the inference: the key set of the result, the
null marker (the optional marking), and hence the required marking are the
same for `A ++ B` and `B ++ A`. -/
theorem C1_gcs_order_invariants (A B : List Obj) (key : String) :
    (hasKey (get_common_structure (A ++ B)) key
       = hasKey (get_common_structure (B ++ A)) key)
    ∧ ((lookup (get_common_structure (A ++ B)) key = some JSON.null)
       ↔ (lookup (get_common_structure (B ++ A)) key = some JSON.null))
    ∧ (isRequiredField (A ++ B) key = isRequiredField (B ++ A) key) := by
  have hk : hasKey (get_common_structure (A ++ B)) key
      = hasKey (get_common_structure (B ++ A)) key := by
    apply bool_eq_of_iff
    rw [hasKey_gcs, hasKey_gcs]
    exact ⟨fun ⟨it, hit, h⟩ => ⟨it, mem_append_comm_lr.mp hit, h⟩,
      fun ⟨it, hit, h⟩ => ⟨it, mem_append_comm_lr.mp hit, h⟩⟩
  have hnull : (lookup (get_common_structure (A ++ B)) key = some JSON.null)
      ↔ (lookup (get_common_structure (B ++ A)) key = some JSON.null) := by
    rw [lookup_gcs_eq_some_null_iff, lookup_gcs_eq_some_null_iff]
    have hmem : key ∈ allKeys (A ++ B) ↔ key ∈ allKeys (B ++ A) := by
      rw [mem_allKeys, mem_allKeys]
      exact ⟨fun ⟨it, hit, h⟩ => ⟨it, mem_append_comm_lr.mp hit, h⟩,
        fun ⟨it, hit, h⟩ => ⟨it, mem_append_comm_lr.mp hit, h⟩⟩
    have hlen : ((presentValues (A ++ B) key).length < (A ++ B).length) ↔
        ((presentValues (B ++ A) key).length < (B ++ A).length) := by
      rw [presentValues_append, presentValues_append]
      simp only [List.length_append]
      omega
    have hnnv : (nonNullValues (A ++ B) key = []) ↔
        (nonNullValues (B ++ A) key = []) := by
      rw [nonNullValues_append, nonNullValues_append]
      simp only [List.append_eq_nil]
      tauto
    rw [hmem, hlen, hnnv]
  refine ⟨hk, hnull, ?_⟩
  apply bool_eq_of_iff
  rw [isRequiredField_iff, isRequiredField_iff, hk]
  simp only [ne_eq, hnull]

/-- C1 counterexample: two samples that disagree on the scalar kind of
field v. Inference keeps the first non-null value, so the two
concatenation orders give different results: the claimed order
independence of `get_common_structure` is false. -/
theorem C1_cex :
    lookup (get_common_structure [[("v", JSON.int 1)], [("v", JSON.str "two")]]) "v"
        = some (JSON.int 1)
    ∧ lookup (get_common_structure [[("v", JSON.str "two")], [("v", JSON.int 1)]]) "v"
        = some (JSON.str "two")
    ∧ get_common_structure [[("v", JSON.int 1)], [("v", JSON.str "two")]]
        ≠ get_common_structure [[("v", JSON.str "two")], [("v", JSON.int 1)]] := by
  have h1 : lookup (get_common_structure
      [[("v", JSON.int 1)], [("v", JSON.str "two")]]) "v" = some (JSON.int 1) := by
    rw [lookup_gcs (List.cons_ne_nil _ _) "v", if_pos (by decide)]
    rfl
  have h2 : lookup (get_common_structure
      [[("v", JSON.str "two")], [("v", JSON.int 1)]]) "v" = some (JSON.str "two") := by
    rw [lookup_gcs (List.cons_ne_nil _ _) "v", if_pos (by decide)]
    rfl
  refine ⟨h1, h2, fun heq => ?_⟩
  rw [heq] at h1
  exact JSON.noConfusion (Option.some.inj (h1.symm.trans h2))

/-- C2 (amended). A field is marked required by the inference iff its key
exists in every sample AND at least one sample carries a non-null value for
it: the code maps a field that is present everywhere but always null to the
same null marker as an optional field, so the claimed "regardless of a null
value" direction fails (see the counterexample). The claimed concrete
scenario with samples a:1,b:x and a:2 does hold and follows from this
equivalence. -/
theorem C2_required_iff :
    (∀ (samples : List Obj) (key : String),
      isRequiredField samples key = true ↔
        ((∀ s ∈ samples, hasKey s key = true) ∧
          ∃ s ∈ samples, ∃ v, lookup s key = some v ∧ isNullV v = false))
    ∧ isRequiredField
        [[("a", JSON.int 1), ("b", JSON.str "x")], [("a", JSON.int 2)]] "a" = true
    ∧ isRequiredField
        [[("a", JSON.int 1), ("b", JSON.str "x")], [("a", JSON.int 2)]] "b" = false := by
  have hmain : ∀ (samples : List Obj) (key : String),
      isRequiredField samples key = true ↔
        ((∀ s ∈ samples, hasKey s key = true) ∧
          ∃ s ∈ samples, ∃ v, lookup s key = some v ∧ isNullV v = false) := by
    intro samples key
    rw [isRequiredField_iff, hasKey_gcs]
    constructor
    · rintro ⟨⟨it0, hit0, hk0⟩, hnot⟩
      rw [ne_eq, lookup_gcs_eq_some_null_iff] at hnot
      have hmem : key ∈ allKeys samples := (mem_allKeys samples key).mpr ⟨it0, hit0, hk0⟩
      have hcond : ¬(((presentValues samples key).length < samples.length) ∨
          nonNullValues samples key = []) := fun hc => hnot ⟨hmem, hc⟩
      push_neg at hcond
      obtain ⟨hlen, hnnv⟩ := hcond
      have hlen' : (presentValues samples key).length = samples.length :=
        Nat.le_antisymm (presentValues_length_le _ _) hlen
      refine ⟨(presentValues_length_eq_iff samples key).mp hlen', ?_⟩
      obtain ⟨v, hv⟩ := List.exists_mem_of_ne_nil _ hnnv
      obtain ⟨⟨s, hs, hl⟩, hnn⟩ := mem_nonNullValues_iff.mp hv
      exact ⟨s, hs, v, hl, hnn⟩
    · rintro ⟨hall, s, hs, v, hl, hnn⟩
      have hmem : key ∈ allKeys samples :=
        (mem_allKeys samples key).mpr ⟨s, hs, by simp [hasKey, hl]⟩
      have hvnn : v ∈ nonNullValues samples key :=
        mem_nonNullValues_iff.mpr ⟨⟨s, hs, hl⟩, hnn⟩
      have hnnv : nonNullValues samples key ≠ [] := List.ne_nil_of_mem hvnn
      have hlen' := (presentValues_length_eq_iff samples key).mpr hall
      refine ⟨⟨s, hs, by simp [hasKey, hl]⟩, ?_⟩
      rw [ne_eq, lookup_gcs_eq_some_null_iff]
      rintro ⟨_, hc | hc⟩
      · omega
      · exact hnnv hc
  refine ⟨hmain, ?_, ?_⟩
  · exact (hmain _ "a").mpr ⟨by decide,
      [("a", JSON.int 1), ("b", JSON.str "x")], List.mem_cons_self _ _,
      JSON.int 1, rfl, rfl⟩
  · cases hb : isRequiredField
        [[("a", JSON.int 1), ("b", JSON.str "x")], [("a", JSON.int 2)]] "b" with
    | false => rfl
    | true =>
      exfalso
      obtain ⟨hall, _⟩ := (hmain _ "b").mp hb
      have hc := hall [("a", JSON.int 2)]
        (List.mem_cons_of_mem _ (List.mem_cons_self _ _))
      exact absurd hc (by decide)

/-- C2 counterexample: in the single sample the key a exists (with a null
value), so by the claim a should be marked required; the inference marks it
with the null marker, i.e. not required. -/
theorem C2_cex :
    hasKey [("a", JSON.null)] "a" = true
    ∧ isRequiredField [[("a", JSON.null)]] "a" = false := by
  refine ⟨rfl, ?_⟩
  unfold isRequiredField
  rw [lookup_gcs (List.cons_ne_nil _ _) "a", if_pos (by decide)]
  rfl

/-- C7: the key set of the inferred structure is exactly the union of the
key sets of the (non-empty list of) samples. -/
theorem C7_field_union (items : List Obj) (hne : items ≠ []) (key : String) :
    hasKey (get_common_structure items) key = true ↔
      ∃ it ∈ items, hasKey it key = true :=
  hasKey_gcs items key

theorem C7_field_union_witness :
    (([[("a", JSON.int 1)], [("b", JSON.int 2)]] : List Obj) ≠ [])
    ∧ (hasKey (get_common_structure [[("a", JSON.int 1)], [("b", JSON.int 2)]]) "a" = true ↔
        ∃ it ∈ ([[("a", JSON.int 1)], [("b", JSON.int 2)]] : List Obj),
          hasKey it "a" = true) :=
  ⟨List.cons_ne_nil _ _,
    C7_field_union [[("a", JSON.int 1)], [("b", JSON.int 2)]] (List.cons_ne_nil _ _) "a"⟩

/-- C3 (amended). For a field whose present non-null sample values are all
scalars, the inferred value is the FIRST non-null value (so when all
values share one concrete kind the inferred shape has that kind, which is
the half of the claim that holds); when the kinds disagree the result is
the first sample's kind, not a neutral any kind (see the counterexample).
-/
theorem C3_scalar_first_nonnull (items : List Obj) (key : String)
    (hall : ∀ it ∈ items, hasKey it key = true)
    (hne : items.isEmpty = false)
    (hnnv : (nonNullValues items key).isEmpty = false)
    (hobj : (nonNullValues items key).any isObjV = false)
    (harr : (nonNullValues items key).any isArrV = false) :
    lookup (get_common_structure items) key =
        some ((nonNullValues items key).headD JSON.null)
    ∧ ∀ k : String,
        (nonNullValues items key).all (fun v => kindName v == k) = true →
        kindName ((nonNullValues items key).headD JSON.null) = k := by
  have hne' := ne_nil_of_isEmpty_false hne
  have hnnv' := ne_nil_of_isEmpty_false hnnv
  have hlen' := (presentValues_length_eq_iff items key).mpr hall
  have hnl : ¬ (presentValues items key).length < items.length := by omega
  have hmem : key ∈ allKeys items := by
    cases items with
    | nil => exact absurd rfl hne'
    | cons it rest =>
      exact (mem_allKeys _ key).mpr
        ⟨it, List.mem_cons_self _ _, hall it (List.mem_cons_self _ _)⟩
  constructor
  · rw [lookup_gcs hne' key, if_pos hmem, fieldValue_scalar hnl hnnv' hobj harr]
  · intro k hk
    rcases hcase : nonNullValues items key with _ | ⟨v, rest⟩
    · exact absurd hcase hnnv'
    · rw [hcase] at hk
      have hvk := List.all_eq_true.mp hk v (List.mem_cons_self _ _)
      rw [List.headD_cons]
      exact eq_of_beq hvk

theorem C3_scalar_first_nonnull_witness :
    (∀ it ∈ ([[("v", JSON.int 1)], [("v", JSON.int 2)]] : List Obj),
        hasKey it "v" = true)
    ∧ (lookup (get_common_structure [[("v", JSON.int 1)], [("v", JSON.int 2)]]) "v"
        = some ((nonNullValues [[("v", JSON.int 1)], [("v", JSON.int 2)]] "v").headD JSON.null)
      ∧ ∀ k : String,
          ((nonNullValues [[("v", JSON.int 1)], [("v", JSON.int 2)]] "v").all
            (fun v => kindName v == k)) = true →
          kindName ((nonNullValues [[("v", JSON.int 1)], [("v", JSON.int 2)]] "v").headD
            JSON.null) = k) :=
  ⟨by decide,
    C3_scalar_first_nonnull [[("v", JSON.int 1)], [("v", JSON.int 2)]] "v"
      (by decide) rfl rfl rfl rfl⟩

/-- C3 counterexample: the claimed concrete scenario v:1 and v:two with
disagreeing kinds. The inferred field value is the first sample's value 1,
of kind int; the inference has no any kind and does not fall back to one,
contradicting the claimed shape v required any. -/
theorem C3_cex :
    lookup (get_common_structure [[("v", JSON.int 1)], [("v", JSON.str "two")]]) "v"
        = some (JSON.int 1)
    ∧ kindName (JSON.int 1) = "int"
    ∧ kindName (JSON.int 1) ≠ kindName (JSON.str "two") := by
  refine ⟨?_, rfl, by decide⟩
  rw [lookup_gcs (List.cons_ne_nil _ _) "v", if_pos (by decide)]
  rfl

/-- C4 (amended). Inside `get_common_structure` the claim holds: for a
field whose present non-null values are lists, the inferred element sample
is exactly the first element of the first non-empty observed list (and an
empty element list when only empty lists were observed). It fails for
lists processed directly by `create_dataclass_from_dict`, which folds ALL
elements of the observed list (all dict elements are merged, and all
scalar element types are unioned) - see the counterexample. -/
theorem C4_list_first_element (items : List Obj) (key : String)
    (hall : ∀ it ∈ items, hasKey it key = true)
    (hne : items.isEmpty = false)
    (hnnv : (nonNullValues items key).isEmpty = false)
    (hobj : (nonNullValues items key).any isObjV = false)
    (harr : (nonNullValues items key).any isArrV = true) :
    lookup (get_common_structure items) key =
      some (JSON.arr ((nonNullValues items key).filterMap firstOfArr).head?.toList) := by
  have hne' := ne_nil_of_isEmpty_false hne
  have hnnv' := ne_nil_of_isEmpty_false hnnv
  have hlen' := (presentValues_length_eq_iff items key).mpr hall
  have hnl : ¬ (presentValues items key).length < items.length := by omega
  have hmem : key ∈ allKeys items := by
    cases items with
    | nil => exact absurd rfl hne'
    | cons it rest =>
      exact (mem_allKeys _ key).mpr
        ⟨it, List.mem_cons_self _ _, hall it (List.mem_cons_self _ _)⟩
  rw [lookup_gcs hne' key, if_pos hmem, fieldValue_arr hnl hnnv' hobj harr]

theorem C4_list_first_element_witness :
    (∀ it ∈ ([[("xs", JSON.arr [JSON.int 1, JSON.int 2])],
        [("xs", JSON.arr [JSON.int 3])]] : List Obj), hasKey it "xs" = true)
    ∧ lookup (get_common_structure
        [[("xs", JSON.arr [JSON.int 1, JSON.int 2])], [("xs", JSON.arr [JSON.int 3])]]) "xs"
      = some (JSON.arr ((nonNullValues
          [[("xs", JSON.arr [JSON.int 1, JSON.int 2])], [("xs", JSON.arr [JSON.int 3])]]
          "xs").filterMap firstOfArr).head?.toList) :=
  ⟨by decide,
    C4_list_first_element
      [[("xs", JSON.arr [JSON.int 1, JSON.int 2])], [("xs", JSON.arr [JSON.int 3])]]
      "xs" (by decide) rfl rfl rfl rfl⟩

/-- A sample value nested to depth n: an object chain a.a.....a ending in
an integer. -/
def deepVal : Nat → JSON
  | 0 => JSON.int 0
  | n + 1 => JSON.obj [("a", deepVal n)]

/-- The one-field sample object holding `deepVal n`. -/
def deepObj (n : Nat) : Obj := [("a", deepVal n)]

mutual

/-- Nesting depth of a JSON value (objects and arrays add one level). -/
def jsonDepth : JSON → Nat
  | .arr xs => 1 + jsonDepthList xs
  | .obj fs => 1 + jsonDepthFields fs
  | _ => 0

/-- Nesting depth of a list of JSON values. -/
def jsonDepthList : List JSON → Nat
  | [] => 0
  | x :: xs => max (jsonDepth x) (jsonDepthList xs)

/-- Nesting depth of the fields of a JSON object. -/
def jsonDepthFields : List (String × JSON) → Nat
  | [] => 0
  | (_, v) :: fs => max (jsonDepth v) (jsonDepthFields fs)

end

theorem jsonDepth_deepVal (n : Nat) : jsonDepth (deepVal n) = n := by
  induction n with
  | zero => rfl
  | succ n ih =>
    show 1 + max (jsonDepth (deepVal n)) 0 = n + 1
    rw [ih]
    omega

theorem gcs_deep (n : Nat) : get_common_structure [deepObj n] = deepObj n := by
  induction n with
  | zero =>
    rw [gcs_eq_map (List.cons_ne_nil _ _)]
    rfl
  | succ n ih =>
    rw [gcs_eq_map (List.cons_ne_nil _ _)]
    show [("a", JSON.obj (get_common_structure [deepObj n]))] = deepObj (n + 1)
    rw [ih]
    rfl

/-- C9 (amended). The code enforces no recursion-depth limit and defines no
DepthLimitExceeded error (the only exception class is
MissingRequiredFieldError): inference recurses to the full nesting depth
of its input and returns the complete generalized structure at every
depth. In the Python source the recursion is bounded only by the
interpreter stack, not by an explicit guard that fails closed. -/
theorem C9_no_depth_limit (n : Nat) :
    get_common_structure [deepObj n] = deepObj n ∧ jsonDepth (deepVal n) = n :=
  ⟨gcs_deep n, jsonDepth_deepVal n⟩

/-- C9 counterexample: a concrete input nested 100 levels deep.
`get_common_structure` does not fail closed with a DepthLimitExceeded
error (none exists in the code, and the result type has no error case):
it returns the complete structure. -/
theorem C9_cex :
    get_common_structure [deepObj 100] = deepObj 100
    ∧ jsonDepth (deepVal 100) = 100 :=
  ⟨gcs_deep 100, jsonDepth_deepVal 100⟩

/-- Python `result[k] = v`: replace the value of an existing key in place
(dict update keeps the key position), or append a new binding. -/
def setKey : Obj → String → JSON → Obj
  | [], k, v => [(k, v)]
  | (k', v') :: rest, k, v =>
    if k' = k then (k, v) :: rest else (k', v') :: setKey rest k v

namespace GenerateMongo

mutual

/-- Embedding of `merge_dicts` from src/generate_mongo.py lines 42-53:
`result = a.copy()`, then `for k, v in b.items()`, threading `result`
through the iteration, written as recursion over the items of b. -/
def merge_dicts : Obj → Obj → Obj
  | result, [] => result
  | result, (k, v) :: rest => merge_dicts (mergeStep result k v) rest
termination_by a b => sizeOf b
decreasing_by
  all_goals simp only [List.cons.sizeOf_spec, Prod.mk.sizeOf_spec]
  all_goals omega

/-- One iteration of the loop in merge_dicts: `if k in result:` merge
recursively when both values are dicts, otherwise take the value from b;
`else:` append the new binding. -/
def mergeStep (result : Obj) (k : String) (v : JSON) : Obj :=
  match lookup result k with
  | Option.none => result ++ [(k, v)]
  | some old =>
    match old, v with
    | JSON.obj oa, JSON.obj ob => setKey result k (JSON.obj (merge_dicts oa ob))
    | _, _ => setKey result k v
termination_by sizeOf v
decreasing_by
  simp only [JSON.obj.sizeOf_spec]
  omega

end

theorem mongoMergeStep_none {result : Obj} {k : String} {v : JSON}
    (h : lookup result k = Option.none) :
    mergeStep result k v = result ++ [(k, v)] := by
  unfold mergeStep
  rw [h]

end GenerateMongo

namespace TemplatesDummyGen

mutual

/-- Embedding of `merge_dicts` from src/templates_dummy_gen/generate.py
lines 31-46: identical to the other copy except for the shared-key
conflict case handled in `mergeStep`. -/
def merge_dicts : Obj → Obj → Obj
  | result, [] => result
  | result, (k, v) :: rest => merge_dicts (mergeStep result k v) rest
termination_by a b => sizeOf b
decreasing_by
  all_goals simp only [List.cons.sizeOf_spec, Prod.mk.sizeOf_spec]
  all_goals omega

/-- One iteration of the loop: as in the other copy, except that a shared
key whose values are not both dicts is overwritten with None (the source
comment reads: mark it as Optional on disagreement). -/
def mergeStep (result : Obj) (k : String) (v : JSON) : Obj :=
  match lookup result k with
  | Option.none => result ++ [(k, v)]
  | some old =>
    match old, v with
    | JSON.obj oa, JSON.obj ob => setKey result k (JSON.obj (merge_dicts oa ob))
    | _, _ => setKey result k JSON.null
termination_by sizeOf v
decreasing_by
  simp only [JSON.obj.sizeOf_spec]
  omega

end

theorem tgMergeStep_none {result : Obj} {k : String} {v : JSON}
    (h : lookup result k = Option.none) :
    mergeStep result k v = result ++ [(k, v)] := by
  unfold mergeStep
  rw [h]

end TemplatesDummyGen

theorem lookup_append (xs ys : Obj) (key : String) :
    lookup (xs ++ ys) key =
      match lookup xs key with
      | some v => some v
      | Option.none => lookup ys key := by
  induction xs with
  | nil => simp [lookup]
  | cons p rest ih =>
    obtain ⟨k, v⟩ := p
    by_cases hk : k = key <;> simp [lookup, hk, ih]

theorem lookup_eq_none_of_hasKey_false {d : Obj} {key : String}
    (h : hasKey d key = false) : lookup d key = Option.none := by
  unfold hasKey at h
  cases hl : lookup d key with
  | none => rfl
  | some v => rw [hl] at h; simp at h

/-- C8 counterexample: for a shared key with values that are not both
dicts, the generate_mongo copy keeps the value from b while the
templates_dummy_gen copy stores None, so the two copies are not
equivalent. -/
theorem C8_cex :
    GenerateMongo.merge_dicts [("k", JSON.int 1)] [("k", JSON.int 2)]
        = [("k", JSON.int 2)]
    ∧ TemplatesDummyGen.merge_dicts [("k", JSON.int 1)] [("k", JSON.int 2)]
        = [("k", JSON.null)]
    ∧ GenerateMongo.merge_dicts [("k", JSON.int 1)] [("k", JSON.int 2)]
        ≠ TemplatesDummyGen.merge_dicts [("k", JSON.int 1)] [("k", JSON.int 2)] := by
  have h1 : GenerateMongo.merge_dicts [("k", JSON.int 1)] [("k", JSON.int 2)]
      = [("k", JSON.int 2)] := by
    rw [GenerateMongo.merge_dicts]
    have hstep : GenerateMongo.mergeStep [("k", JSON.int 1)] "k" (JSON.int 2)
        = [("k", JSON.int 2)] := by
      unfold GenerateMongo.mergeStep
      simp [lookup, setKey]
    rw [hstep, GenerateMongo.merge_dicts]
  have h2 : TemplatesDummyGen.merge_dicts [("k", JSON.int 1)] [("k", JSON.int 2)]
      = [("k", JSON.null)] := by
    rw [TemplatesDummyGen.merge_dicts]
    have hstep : TemplatesDummyGen.mergeStep [("k", JSON.int 1)] "k" (JSON.int 2)
        = [("k", JSON.null)] := by
      unfold TemplatesDummyGen.mergeStep
      simp [lookup, setKey]
    rw [hstep, TemplatesDummyGen.merge_dicts]
  refine ⟨h1, h2, fun heq => ?_⟩
  rw [h1, h2] at heq
  simp at heq

/-- C8 (amended). The two copies of merge_dicts agree (and both reduce to
plain concatenation) whenever the key sets of the two inputs are disjoint
and b has no duplicate keys; they differ exactly on shared keys whose
values are not both dicts, where generate_mongo keeps the value from b and
templates_dummy_gen stores None (see the counterexample). -/
theorem C8_merge_disjoint (a b : Obj)
    (hdisj : ∀ p ∈ b, hasKey a p.1 = false)
    (hnd : (b.map Prod.fst).Nodup) :
    GenerateMongo.merge_dicts a b = a ++ b
    ∧ TemplatesDummyGen.merge_dicts a b = a ++ b := by
  induction b generalizing a with
  | nil =>
    constructor
    · rw [GenerateMongo.merge_dicts]
      simp
    · rw [TemplatesDummyGen.merge_dicts]
      simp
  | cons p rest ih =>
    obtain ⟨k, v⟩ := p
    have hk : lookup a k = Option.none :=
      lookup_eq_none_of_hasKey_false (hdisj (k, v) (List.mem_cons_self _ _))
    have hknotin : k ∉ rest.map Prod.fst := (List.nodup_cons.mp hnd).1
    have hdisj' : ∀ q ∈ rest, hasKey (a ++ [(k, v)]) q.1 = false := by
      intro q hq
      have h1 : lookup a q.1 = Option.none :=
        lookup_eq_none_of_hasKey_false (hdisj q (List.mem_cons_of_mem _ hq))
      have hkq : ¬ k = q.1 := by
        intro he
        exact hknotin (he ▸ List.mem_map_of_mem Prod.fst hq)
      rw [hasKey, lookup_append, h1]
      simp [lookup, hkq]
    have hih := ih (a ++ [(k, v)]) hdisj' (List.nodup_cons.mp hnd).2
    constructor
    · rw [GenerateMongo.merge_dicts, GenerateMongo.mongoMergeStep_none hk]
      simpa [List.append_assoc] using hih.1
    · rw [TemplatesDummyGen.merge_dicts, TemplatesDummyGen.tgMergeStep_none hk]
      simpa [List.append_assoc] using hih.2

theorem C8_merge_disjoint_witness :
    (∀ p ∈ ([("b", JSON.int 2)] : Obj), hasKey [("a", JSON.int 1)] p.1 = false)
    ∧ (([("b", JSON.int 2)] : Obj).map Prod.fst).Nodup
    ∧ (GenerateMongo.merge_dicts [("a", JSON.int 1)] [("b", JSON.int 2)]
        = [("a", JSON.int 1)] ++ [("b", JSON.int 2)]
      ∧ TemplatesDummyGen.merge_dicts [("a", JSON.int 1)] [("b", JSON.int 2)]
        = [("a", JSON.int 1)] ++ [("b", JSON.int 2)]) :=
  ⟨by decide, by decide,
    C8_merge_disjoint [("a", JSON.int 1)] [("b", JSON.int 2)] (by decide) (by decide)⟩

mutual

/-- A Python type annotation as produced by create_dataclass_from_dict
(src/generate_mongo.py lines 91-155): Optional[Any], Optional of one of
the scalar types, Optional of a nested dataclass, List[Any],
List[Optional[Any]], List of one concrete runtime type (named by its
tag), or List of a nested dataclass. -/
inductive PyType where
  | optAny
  | optBool
  | optInt
  | optFloat
  | optStr
  | optClass (c : PyClass)
  | listAny
  | listOptAny
  | listTagged (tag : String)
  | listClass (c : PyClass)

/-- A runtime-generated dataclass: its name and its annotated fields in
insertion order. Every generated field carries a default (None, or a
fresh empty list for the list types), captured below by `defaultFor`. -/
inductive PyClass where
  | mk (name : String) (fields : List (String × PyType))

end

/-- Name of a generated dataclass. -/
def PyClass.cname : PyClass → String
  | .mk n _ => n

/-- Fields of a generated dataclass. -/
def PyClass.cfields : PyClass → List (String × PyType)
  | .mk _ fs => fs

/-- Python str.title(): uppercase every letter that follows a non-letter,
lowercase the other letters. -/
def titleCase (s : String) : String :=
  (s.data.foldl
    (fun (acc : List Char × Bool) ch =>
      if ch.isAlpha then
        (acc.1 ++ [if acc.2 then ch.toLower else ch.toUpper], true)
      else (acc.1 ++ [ch], false))
    ([], false)).1.asString

/-- List-typed annotations (they get default_factory=list and, for
dataclass elements, a binding hook). -/
def PyType.isListT : PyType → Bool
  | .listAny => true
  | .listOptAny => true
  | .listTagged _ => true
  | .listClass _ => true
  | _ => false

/-- Python `fields[key] = ...` on the accumulating dict of the dataclass
builder: replace in place or append. -/
def setKeyT : List (String × PyType) → String → PyType → List (String × PyType)
  | [], k, t => [(k, t)]
  | (k', t') :: rest, k, t =>
    if k' = k then (k, t) :: rest else (k', t') :: setKeyT rest k t

/-- Python `key in fields` on the accumulating dict. -/
def hasKeyT : List (String × PyType) → String → Bool
  | [], _ => false
  | (k', _) :: rest, k => if k' = k then true else hasKeyT rest k

/-- The annotation create_dataclass_from_dict computes for one key/value
pair (lines 95-146): None gives Optional[Any]; a dict gives an Optional
nested dataclass built recursively; a list gives List[Any] when empty, a
List of the dataclass built from the merged common structure when it
contains dicts, and otherwise a List classified by the set of runtime
types of its non-null elements; scalars give Optional of their type.
`recurse` is the recursive dataclass construction. -/
def cdcTypeFor (recurse : String → Obj → PyClass) (key : String)
    (value : JSON) : PyType :=
  match value with
  | JSON.null => PyType.optAny
  | JSON.obj fs => PyType.optClass (recurse (titleCase key) fs)
  | JSON.arr xs =>
    if xs.isEmpty then PyType.listAny
    else
      let dicts := xs.filterMap asObjV
      if dicts.isEmpty then
        let itemTypes := ((xs.filter (fun it => !isNullV it)).map kindName).dedup
        match itemTypes with
        | [] => PyType.listOptAny
        | [t] => PyType.listTagged t
        | _ => PyType.listAny
      else PyType.listClass (recurse (titleCase key) (get_common_structure dicts))
  | JSON.bool _ => PyType.optBool
  | JSON.int _ => PyType.optInt
  | JSON.float _ => PyType.optFloat
  | JSON.str _ => PyType.optStr

/-- The `for key, value in data.items()` loop of
create_dataclass_from_dict, accumulating the fields dict: list-typed
entries are assigned unconditionally, the other branches skip a key that
is already present (`if key in fields: continue`). -/
def cdfdEntries (recurse : String → Obj → PyClass) :
    Obj → List (String × PyType) → List (String × PyType)
  | [], acc => acc
  | (key, value) :: rest, acc =>
    let t := cdcTypeFor recurse key value
    cdfdEntries recurse rest
      (if t.isListT then setKeyT acc key t
       else if hasKeyT acc key then acc
       else acc ++ [(key, t)])

/-- Embedding of create_dataclass_from_dict driven by a fuel parameter:
the Python function recurses both into nested dict values and into the
merged common structure of list elements; each such call descends at
least one nesting level of the input, so the wrapper's fuel (one more
than the nesting depth of the input) is never exhausted on the inputs
this file evaluates. -/
def cdfdFuel : Nat → String → Obj → PyClass
  | 0, className, _ => PyClass.mk className []
  | Nat.succ fuel, className, data =>
    PyClass.mk className (cdfdEntries (cdfdFuel fuel) data [])

/-- Embedding of create_dataclass_from_dict itself. -/
def create_dataclass_from_dict (className : String) (data : Obj) : PyClass :=
  cdfdFuel (jsonDepthFields data + 1) className data

/-- C4 counterexample: a list field processed directly by
create_dataclass_from_dict. Its element type is NOT determined solely by
the first element: the list 1, two (first element an int) is typed
List[Any] because the second element is a string, while the list 1 alone
is typed List[int]; the second element changed the inferred element
shape. -/
theorem C4_cex :
    create_dataclass_from_dict "Doc" [("xs", JSON.arr [JSON.int 1, JSON.str "two"])]
        = PyClass.mk "Doc" [("xs", PyType.listAny)]
    ∧ create_dataclass_from_dict "Doc" [("xs", JSON.arr [JSON.int 1])]
        = PyClass.mk "Doc" [("xs", PyType.listTagged "int")]
    ∧ PyType.listAny ≠ PyType.listTagged "int" :=
  ⟨rfl, rfl, fun h => PyType.noConfusion h⟩

/-- A Python runtime value as produced by binding: None, a scalar, a
plain list, a plain dict (an untyped value passed through for Any-typed
fields), or a dataclass instance with named attributes. Attribute access
succeeds only on dataclass instances. -/
inductive PyValue where
  | none
  | bool (b : Bool)
  | int (n : Int)
  | float (q : Rat)
  | str (s : String)
  | list (xs : List PyValue)
  | dict (fields : List (String × PyValue))
  | record (name : String) (fields : List (String × PyValue))

mutual

/-- The untyped injection of a parsed JSON value into the runtime value
it already is in Python (an identity there; a constructor renaming in
the embedding). A JSON object becomes a plain dict, not a dataclass. -/
def toPyValue : JSON → PyValue
  | .null => PyValue.none
  | .bool b => PyValue.bool b
  | .int n => PyValue.int n
  | .float q => PyValue.float q
  | .str s => PyValue.str s
  | .arr xs => PyValue.list (toPyValueList xs)
  | .obj fs => PyValue.dict (toPyValueFields fs)

/-- toPyValue over array elements. -/
def toPyValueList : List JSON → List PyValue
  | [] => []
  | x :: xs => toPyValue x :: toPyValueList xs

/-- toPyValue over object fields. -/
def toPyValueFields : List (String × JSON) → List (String × PyValue)
  | [] => []
  | (k, v) :: fs => (k, toPyValue v) :: toPyValueFields fs

end

/-- The default a generated dataclass gives a missing field: list-typed
fields use field(default_factory=list), everything else default=None. -/
def defaultFor : PyType → PyValue
  | .listAny => PyValue.list []
  | .listOptAny => PyValue.list []
  | .listTagged _ => PyValue.list []
  | .listClass _ => PyValue.list []
  | _ => PyValue.none

/-- Strip leading spaces, Python str.strip on one side. -/
def dropSpaces (cs : List Char) : List Char :=
  cs.dropWhile (fun c => c = ' ')

/-- The value of a non-empty all-digit character list, accumulated left
to right. -/
def digitsValAux : List Char → Nat → Option Nat
  | [], acc => some acc
  | c :: cs, acc =>
    if c.isDigit then digitsValAux cs (acc * 10 + (c.toNat - 48))
    else Option.none

/-- The value of a character list that must be non-empty and all
digits. -/
def digitsVal : List Char → Option Nat
  | [] => Option.none
  | cs => digitsValAux cs 0

/-- Strip surrounding spaces and split off an optional leading sign. -/
def stripSigned (cs : List Char) : Bool × List Char :=
  match dropSpaces ((dropSpaces cs.reverse).reverse) with
  | '-' :: rest => (true, rest)
  | '+' :: rest => (false, rest)
  | rest => (false, rest)

/-- Python int(s) on a string: optional surrounding spaces, optional
sign, decimal digits; anything else raises ValueError. -/
def pyIntOfStr (s : String) : Option Int :=
  match stripSigned s.data with
  | (neg, ds) =>
    (digitsVal ds).map (fun n => if neg then -(n : Int) else (n : Int))

/-- Python float(s) on a string, modelled for the plain decimal forms:
optional surrounding spaces, optional sign, digits, optionally a dot
and fractional digits. -/
def pyFloatOfStr (s : String) : Option Rat :=
  match stripSigned s.data with
  | (neg, u) =>
    let sign : Rat := if neg then -1 else 1
    let w := u.takeWhile (fun c => !(c = '.'))
    match u.dropWhile (fun c => !(c = '.')) with
    | [] => (digitsVal w).map (fun n => sign * (n : Rat))
    | _ :: f =>
      if f.any (fun c => c = '.') then Option.none
      else
        match digitsVal w, digitsVal f with
        | some nw, some nf =>
          some (sign * ((nw : Rat) + (nf : Rat) / ((10 : Rat) ^ f.length)))
        | _, _ => Option.none

/-- Python int(v): the cast main configures for int-annotated fields
(cast=[int, float, str, bool], src/generate_mongo.py line 234). Booleans
are integers, floats truncate toward zero, strings parse as decimal
integers, and anything else - or an unparsable string - raises. -/
def pyCastInt : JSON → Except String JSON
  | JSON.bool b => Except.ok (JSON.int (if b then 1 else 0))
  | JSON.int n => Except.ok (JSON.int n)
  | JSON.float q => Except.ok (JSON.int (q.num.tdiv q.den))
  | JSON.str s =>
    match pyIntOfStr s with
    | some n => Except.ok (JSON.int n)
    | Option.none => Except.error "ValueError: invalid literal for int"
  | _ => Except.error "TypeError: int argument must be a string or a number"

/-- Python float(v): the configured cast for float-annotated fields. -/
def pyCastFloat : JSON → Except String JSON
  | JSON.bool b => Except.ok (JSON.float (if b then 1 else 0))
  | JSON.int n => Except.ok (JSON.float n)
  | JSON.float q => Except.ok (JSON.float q)
  | JSON.str s =>
    match pyFloatOfStr s with
    | some q => Except.ok (JSON.float q)
    | Option.none => Except.error "ValueError: could not convert string to float"
  | _ => Except.error "TypeError: float argument must be a string or a number"

/-- Python str(v): the configured cast for str-annotated fields; it never
raises. Scalars print as in Python (a float prints here as a rational,
and the textual form of containers is a fixed tag: no property below
depends on these strings, only on the fact that the cast cannot fail). -/
def pyCastStr : JSON → JSON
  | JSON.null => JSON.str "None"
  | JSON.bool b => JSON.str (if b then "True" else "False")
  | JSON.int n => JSON.str (toString n)
  | JSON.float q => JSON.str (toString q)
  | JSON.str s => JSON.str s
  | JSON.arr _ => JSON.str "container"
  | JSON.obj _ => JSON.str "container"

/-- Python bool(v): the configured cast for bool-annotated fields; it
never raises and yields the truthiness of the value. -/
def pyCastBool : JSON → JSON
  | JSON.null => JSON.bool false
  | JSON.bool b => JSON.bool b
  | JSON.int n => JSON.bool (decide (n ≠ 0))
  | JSON.float q => JSON.bool (decide (q ≠ 0))
  | JSON.str s => JSON.bool (!s.isEmpty)
  | JSON.arr xs => JSON.bool (!xs.isEmpty)
  | JSON.obj fs => JSON.bool (!fs.isEmpty)

/-- The configured cast applied to one element of a List-of-scalars
field, selected by the runtime type tag the dataclass builder stored:
the tags of the cast list cast (int and float can fail), any other tag
passes the element through. -/
def castScalar (tag : String) (v : JSON) : Except String JSON :=
  if tag = "int" then pyCastInt v
  else if tag = "float" then pyCastFloat v
  else if tag = "bool" then Except.ok (pyCastBool v)
  else if tag = "str" then Except.ok (pyCastStr v)
  else Except.ok v

/-- Apply the configured cast across the elements of a list value; the
first failing cast raises. -/
def castItems (tag : String) : List JSON → Except String (List PyValue)
  | [] => Except.ok []
  | x :: xs =>
    match castScalar tag x with
    | Except.ok w =>
      match castItems tag xs with
      | Except.ok ws => Except.ok (toPyValue w :: ws)
      | Except.error e => Except.error e
    | Except.error e => Except.error e

mutual

/-- Modelled from the spec: the structural binder. The binding step of
the source program is dacite.from_dict, an external library that is not
under src/, configured by main (src/generate_mongo.py lines 205-240)
with strict=False, check_types=False, cast=[int, float, str, bool]
(line 234) and a type_hooks table whose hook for every
List-of-dataclass field is the repository's own comprehension
`[from_dict(t, item, config=config) for item in v]` (line 224).
Following the spec's description of the binder as configured: the
document bound by from_dict must be a mapping; a declared field missing
from the document takes its declared default; a present null is
accepted as-is by every Optional field; a present non-null value of a
scalar-annotated field goes through the configured cast - the coercion
clause of the spec - which raises on an uncastable value such as int of
a non-numeric string; Any-typed fields are passed through untyped
(check_types=False, and Any is not in the cast list); the elements of a
List-of-scalars field are cast individually, while a non-list value
there is passed through; a nested dataclass field accepts null or a
mapping; the repository's list hook iterates the raw document value, so
a non-array there raises, and each iterated element is bound as a
document. A raised exception is an Except.error carrying the message. -/
def from_dict (c : PyClass) (data : JSON) : Except String PyValue :=
  match data with
  | JSON.obj fs =>
    match c with
    | PyClass.mk nm cfs =>
      match bindFields cfs fs with
      | Except.ok bfs => Except.ok (PyValue.record nm bfs)
      | Except.error e => Except.error e
  | _ => Except.error "from_dict: data is not a mapping"
termination_by (sizeOf c, sizeOf data)

/-- Bind the declared fields of a dataclass against a document object. -/
def bindFields : List (String × PyType) → Obj → Except String (List (String × PyValue))
  | [], _ => Except.ok []
  | (k, t) :: rest, fs =>
    match lookup fs k with
    | some v =>
      match buildValue t v with
      | Except.ok bv =>
        match bindFields rest fs with
        | Except.ok brest => Except.ok ((k, bv) :: brest)
        | Except.error e => Except.error e
      | Except.error e => Except.error e
    | Option.none =>
      match bindFields rest fs with
      | Except.ok brest => Except.ok ((k, defaultFor t) :: brest)
      | Except.error e => Except.error e
termination_by l fs => (sizeOf l, sizeOf fs)

/-- Bind one present document value against the declared field type:
null into an Optional field is None, scalar annotations apply the
configured cast, Any-typed and plain-list annotations pass through,
List-of-scalars elements are cast individually, and dataclass
annotations recurse. -/
def buildValue : PyType → JSON → Except String PyValue
  | PyType.optClass c, v =>
    match v with
    | JSON.null => Except.ok PyValue.none
    | JSON.obj fs => from_dict c (JSON.obj fs)
    | _ => Except.error "from_dict: data is not a mapping"
  | PyType.listClass c, v =>
    match v with
    | JSON.arr xs =>
      match bindItems c xs with
      | Except.ok bxs => Except.ok (PyValue.list bxs)
      | Except.error e => Except.error e
    | _ => Except.error "TypeError: the list hook iterated a value that is not iterable"
  | PyType.optBool, v =>
    match v with
    | JSON.null => Except.ok PyValue.none
    | _ => Except.ok (toPyValue (pyCastBool v))
  | PyType.optInt, v =>
    match v with
    | JSON.null => Except.ok PyValue.none
    | _ =>
      match pyCastInt v with
      | Except.ok w => Except.ok (toPyValue w)
      | Except.error e => Except.error e
  | PyType.optFloat, v =>
    match v with
    | JSON.null => Except.ok PyValue.none
    | _ =>
      match pyCastFloat v with
      | Except.ok w => Except.ok (toPyValue w)
      | Except.error e => Except.error e
  | PyType.optStr, v =>
    match v with
    | JSON.null => Except.ok PyValue.none
    | _ => Except.ok (toPyValue (pyCastStr v))
  | PyType.listTagged tag, v =>
    match v with
    | JSON.arr xs =>
      match castItems tag xs with
      | Except.ok ws => Except.ok (PyValue.list ws)
      | Except.error e => Except.error e
    | _ => Except.ok (toPyValue v)
  | PyType.optAny, v => Except.ok (toPyValue v)
  | PyType.listAny, v => Except.ok (toPyValue v)
  | PyType.listOptAny, v => Except.ok (toPyValue v)
termination_by t v => (sizeOf t, sizeOf v)

/-- The repository's list hook: bind every element of the document array
as a document of the element dataclass. -/
def bindItems (c : PyClass) : List JSON → Except String (List PyValue)
  | [] => Except.ok []
  | x :: xs =>
    match from_dict c x with
    | Except.ok bv =>
      match bindItems c xs with
      | Except.ok bxs => Except.ok (bv :: bxs)
      | Except.error e => Except.error e
    | Except.error e => Except.error e
termination_by xs => (sizeOf c, sizeOf xs)

end

/-- Attribute lookup in the fields of a dataclass instance. -/
def getattrFields : List (String × PyValue) → String → Option PyValue
  | [], _ => Option.none
  | (k, v) :: rest, name => if k = name then some v else getattrFields rest name

/-- Python getattr on a bound value: only dataclass instances expose
named attributes; on every other value (None, scalars, plain lists and
dicts) the access raises AttributeError, modelled as none. -/
def getattrV : PyValue → String → Option PyValue
  | PyValue.record _ fs, name => getattrFields fs name
  | _, _ => Option.none

/-- The body of the validate_metamodel loop for one dotted path
(src/generate_mongo.py lines 170-180): walk the parts with getattr; a
part whose attribute does not exist (AttributeError) or whose value is
None marks the path missing and stops the walk. -/
def pathMissing : PyValue → List String → Bool
  | _, [] => false
  | v, part :: rest =>
    match getattrV v part with
    | Option.none => true
    | some PyValue.none => true
    | some v' => pathMissing v' rest

/-- The enumerated required dotted paths of validate_metamodel
(src/generate_mongo.py lines 160-167). -/
def required_fields : List String :=
  ["propvalues_json.cdcf.source_type",
   "propvalues_json.cdcf.data_provider_uuid",
   "propvalues_json.cdcf.kafka_connection_uuid",
   "propvalues_json.cdcf.topic_prefix",
   "propvalues_json.cdcf.topic_postfix",
   "propvalues_json.cdcf.debezium.snapshot_mode"]

/-- Splitting a dotted path, Python field_path.split with a dot. -/
def splitPathAux : List Char → List Char → List String
  | [], acc => [String.mk acc.reverse]
  | c :: cs, acc =>
    if c = '.' then String.mk acc.reverse :: splitPathAux cs []
    else splitPathAux cs (c :: acc)

/-- Python `field_path.split(".")`. -/
def splitPath (s : String) : List String := splitPathAux s.data []

/-- Embedding of validate_metamodel (src/generate_mongo.py lines
158-182): collect, in order, the required dotted paths that fail to
resolve on the bound workflow. -/
def validate_metamodel (workflow : PyValue) : List String :=
  required_fields.filter (fun fp => pathMissing workflow (splitPath fp))

/-- The validation step of main (src/generate_mongo.py lines 242-245):
raise MissingRequiredFieldError carrying the missing paths when the list
is non-empty; a raise is modelled as Except.error. -/
def validate_step (workflow : PyValue) : Except (List String) PyValue :=
  if (validate_metamodel workflow).isEmpty then Except.ok workflow
  else Except.error (validate_metamodel workflow)

/-- The binding call of main (src/generate_mongo.py lines 237-240): any
exception escaping from_dict is re-raised as ValueError with the prefix
below. -/
def main_bind (c : PyClass) (data : JSON) : Except String PyValue :=
  match from_dict c data with
  | Except.ok v => Except.ok v
  | Except.error e => Except.error ("Failed to parse metamodel: " ++ e)

/-- A dotted path resolves fully on a bound value when every attribute
along it exists and neither an intermediate nor the final value is None:
the complement of the condition validate_metamodel reports. -/
def resolvesFully : PyValue → List String → Bool
  | _, [] => true
  | v, part :: rest =>
    match getattrV v part with
    | Option.none => false
    | some PyValue.none => false
    | some v' => resolvesFully v' rest

/-- Whether an Except value is the raised-exception case. -/
def isErr {e a : Type _} : Except e a → Bool
  | Except.error _ => true
  | Except.ok _ => false

/-- The fully defaulted instance of a generated dataclass: the value
from_dict produces for the empty document. -/
def defaultRecord : PyClass → PyValue
  | PyClass.mk nm cfs =>
    PyValue.record nm (cfs.map (fun p => (p.1, defaultFor p.2)))

/-- A bound workflow whose cdcf section is complete except that
source_type is explicitly None. -/
def wNullSource : PyValue :=
  PyValue.record "Workflow"
    [("propvalues_json", PyValue.record "Properties"
      [("cdcf", PyValue.record "Cdcf"
        [("source_type", PyValue.none),
         ("data_provider_uuid", PyValue.str "dp"),
         ("kafka_connection_uuid", PyValue.str "kc"),
         ("topic_prefix", PyValue.str "tp"),
         ("topic_postfix", PyValue.str "ts"),
         ("debezium", PyValue.record "Debezium"
           [("snapshot_mode", PyValue.str "no_data")])])])]

theorem pathMissing_eq_not_resolvesFully (parts : List String) (v : PyValue) :
    pathMissing v parts = !resolvesFully v parts := by
  induction parts generalizing v with
  | nil => rfl
  | cons part rest ih =>
    unfold pathMissing resolvesFully
    cases hg : getattrV v part with
    | none => rfl
    | some v' => cases v' <;> simp [ih]

theorem bindFields_nil_doc (l : List (String × PyType)) :
    bindFields l [] = Except.ok (l.map (fun p => (p.1, defaultFor p.2))) := by
  induction l with
  | nil => rw [bindFields]; rfl
  | cons p rest ih =>
    obtain ⟨k, t⟩ := p
    rw [bindFields]
    simp [lookup, ih]

/-- C10: validate_metamodel reports a required dotted path exactly when
it is one of the enumerated required paths and fails to resolve on the
bound object - some attribute along the path does not exist, or some
value along it (including the final one) is None. In particular a field
explicitly set to null is reported as missing even though its key
exists, as the concrete workflow wNullSource (complete except for
source_type = None) shows. -/
theorem C10_null_reported_missing :
    (∀ (w : PyValue) (fp : String),
      fp ∈ validate_metamodel w ↔
        (fp ∈ required_fields ∧ resolvesFully w (splitPath fp) = false))
    ∧ validate_metamodel wNullSource = ["propvalues_json.cdcf.source_type"] := by
  constructor
  · intro w fp
    rw [validate_metamodel, List.mem_filter, pathMissing_eq_not_resolvesFully]
    simp
  · rfl

/-- C6: missing required fields never make the binder itself raise -
from_dict on the empty document succeeds and fills every declared field
with its default - and the hard MissingRequiredFieldError failure is
raised exactly by the separate validation step, exactly when the list of
required dotted paths that fail to resolve on the bound object is
non-empty, carrying exactly that list. -/
theorem C6_missing_as_data :
    (∀ c : PyClass, from_dict c (JSON.obj []) = Except.ok (defaultRecord c))
    ∧ (∀ w : PyValue, isErr (validate_step w) = !(validate_metamodel w).isEmpty)
    ∧ (∀ w : PyValue, validate_step w = Except.error (validate_metamodel w)
        ∨ (validate_metamodel w = [] ∧ validate_step w = Except.ok w)) := by
  refine ⟨?_, ?_, ?_⟩
  · intro c
    cases c with
    | mk nm cfs =>
      rw [from_dict]
      simp [bindFields_nil_doc, defaultRecord]
  · intro w
    unfold validate_step
    by_cases hm : (validate_metamodel w).isEmpty
    · simp [hm, isErr]
    · simp [hm, isErr]
  · intro w
    unfold validate_step
    by_cases hm : (validate_metamodel w).isEmpty
    · right
      constructor
      · exact List.isEmpty_iff.mp hm
      · simp [hm]
    · left
      simp [hm]

/-- Field types the cast list does not reach and that carry no nested
dataclass: Any-typed and List-of-Any annotations, bound as untyped
pass-through. -/
def PyType.isAnyPass : PyType → Bool
  | .optAny => true
  | .listAny => true
  | .listOptAny => true
  | _ => false

theorem buildValue_anypass {t : PyType} (hp : t.isAnyPass = true) (v : JSON) :
    buildValue t v = Except.ok (toPyValue v) := by
  cases t
  case optAny => rw [buildValue]
  case listAny => rw [buildValue]
  case listOptAny => rw [buildValue]
  all_goals simp [PyType.isAnyPass] at hp

theorem bindFields_anypass (l : List (String × PyType))
    (hl : l.all (fun p => p.2.isAnyPass) = true) (d : Obj) :
    bindFields l d = Except.ok (l.map (fun p =>
      (p.1, match lookup d p.1 with
            | some v => toPyValue v
            | Option.none => defaultFor p.2))) := by
  induction l with
  | nil => rw [bindFields]; rfl
  | cons p rest ih =>
    obtain ⟨k, t⟩ := p
    simp only [List.all_cons, Bool.and_eq_true] at hl
    rw [bindFields]
    cases hlk : lookup d k with
    | none => simp [ih hl.2, hlk]
    | some v => simp [buildValue_anypass hl.1, ih hl.2, hlk]

/-- C5 (amended). Binding does not raise for missing fields, nor for
Any-typed fields (values pass through untyped: the cast list does not
reach Any), and a scalar mismatch the configured cast can coerce is
coerced, as the spec prescribes - the numeric string 5 bound into an
int field becomes the integer 5. The claim as stated is false:
structural mismatches make binding raise instead of being recorded - a
non-array where a list of records is expected trips the repository list
hook (see the counterexample), and an uncastable scalar such as int of
the string mismatch makes the configured cast raise, re-raised by main
as ValueError - and no diagnostic is recorded anywhere. -/
theorem C5_cast_binding :
    (∀ (c : PyClass) (d : Obj),
      c.cfields.all (fun p => p.2.isAnyPass) = true →
        from_dict c (JSON.obj d) =
          Except.ok (PyValue.record c.cname (c.cfields.map (fun p =>
            (p.1, match lookup d p.1 with
                  | some v => toPyValue v
                  | Option.none => defaultFor p.2)))))
    ∧ from_dict (PyClass.mk "W" [("a", PyType.optInt)])
        (JSON.obj [("a", JSON.str "5")])
      = Except.ok (PyValue.record "W" [("a", PyValue.int 5)])
    ∧ main_bind (PyClass.mk "W" [("a", PyType.optInt)])
        (JSON.obj [("a", JSON.str "mismatch")])
      = Except.error "Failed to parse metamodel: ValueError: invalid literal for int" := by
  refine ⟨?_, ?_, ?_⟩
  · intro c d hpass
    cases c with
    | mk nm cfs =>
      rw [from_dict]
      simp only [PyClass.cfields] at hpass
      simp [bindFields_anypass cfs hpass d, PyClass.cname, PyClass.cfields]
  · have hcast : pyIntOfStr "5" = some 5 := rfl
    have hbv : buildValue PyType.optInt (JSON.str "5")
        = Except.ok (PyValue.int 5) := by
      rw [buildValue] <;> simp [pyCastInt, hcast, toPyValue]
    have hbf : bindFields [("a", PyType.optInt)] [("a", JSON.str "5")]
        = Except.ok [("a", PyValue.int 5)] := by
      rw [bindFields]
      simp [lookup, hbv]
      rw [bindFields]
    rw [from_dict]
    simp [hbf]
  · have hcast : pyIntOfStr "mismatch" = Option.none := rfl
    have hbv : buildValue PyType.optInt (JSON.str "mismatch")
        = Except.error "ValueError: invalid literal for int" := by
      rw [buildValue] <;> simp [pyCastInt, hcast]
    have hbf : bindFields [("a", PyType.optInt)] [("a", JSON.str "mismatch")]
        = Except.error "ValueError: invalid literal for int" := by
      rw [bindFields]
      simp [lookup, hbv]
    have hfd : from_dict (PyClass.mk "W" [("a", PyType.optInt)])
        (JSON.obj [("a", JSON.str "mismatch")])
        = Except.error "ValueError: invalid literal for int" := by
      rw [from_dict]
      simp [hbf]
    rw [main_bind, hfd]
    rfl

theorem C5_cast_binding_witness :
    ((PyClass.mk "N" [("x", PyType.optAny)]).cfields.all
        (fun p => p.2.isAnyPass)) = true
    ∧ from_dict (PyClass.mk "N" [("x", PyType.optAny)])
        (JSON.obj [("x", JSON.str "anything")]) =
      Except.ok (PyValue.record (PyClass.mk "N" [("x", PyType.optAny)]).cname
        ((PyClass.mk "N" [("x", PyType.optAny)]).cfields.map (fun p =>
          (p.1, match lookup [("x", JSON.str "anything")] p.1 with
                | some v => toPyValue v
                | Option.none => defaultFor p.2)))) :=
  ⟨rfl, C5_cast_binding.1 (PyClass.mk "N" [("x", PyType.optAny)])
    [("x", JSON.str "anything")] rfl⟩

/-- C5 counterexample: the shape inferred from a sample whose items field
holds a list of records, bound against a document whose items value is
the number 5 (a structural mismatch). The repository's list hook
iterates the raw value, the binder raises, and main re-raises
ValueError: the call returns no best-effort bound value and records no
diagnostic. -/
theorem C5_cex :
    main_bind
      (create_dataclass_from_dict "Workflow"
        [("items", JSON.arr [JSON.obj [("id", JSON.int 1)]])])
      (JSON.obj [("items", JSON.int 5)])
    = Except.error ("Failed to parse metamodel: TypeError: the list hook iterated a value that is not iterable") := by
  obtain ⟨C, hW⟩ :
      ∃ C, create_dataclass_from_dict "Workflow"
          [("items", JSON.arr [JSON.obj [("id", JSON.int 1)]])]
        = PyClass.mk "Workflow" [("items", PyType.listClass C)] := ⟨_, rfl⟩
  rw [hW]
  have hbv : buildValue (PyType.listClass C) (JSON.int 5)
      = Except.error "TypeError: the list hook iterated a value that is not iterable" := by
    rw [buildValue] <;> simp
  have hbf : bindFields [("items", PyType.listClass C)] [("items", JSON.int 5)]
      = Except.error "TypeError: the list hook iterated a value that is not iterable" := by
    rw [bindFields]
    simp [lookup, hbv]
  have hfd : from_dict (PyClass.mk "Workflow" [("items", PyType.listClass C)])
      (JSON.obj [("items", JSON.int 5)])
      = Except.error "TypeError: the list hook iterated a value that is not iterable" := by
    rw [from_dict]
    simp [hbf]
  rw [main_bind, hfd]
  rfl
